import Mathlib

/-!
Verification of the reminder scheduling and delivery subsystem of the
EyeCare repository (`notificationService` and the `Reminder` model).

The embedding is shallow: the `NotificationService` class becomes a pure
state-transformer over `SchedState`; timestamps are `Int` epoch values
(an unparsable `dateTime`, i.e. `NaN` after `new Date(...)`, is `none`);
the Mongo `Reminder` collection is a list of records keyed by `id`; the
`scheduledJobs` JavaScript `Map` is an insertion-ordered association list
from reminder id to a timer handle (`Nat`), together with the set of
handles on which `.cancel()` was called; the transport (`sendMail`) is an
oracle `Nat → SendOutcome` giving the outcome of each attempt, and the
dispatch carries a `saveOk` flag for the outcome of `reminder.save()`.
The `try`/`catch`/`finally` control flow of the source is modelled by the
totality of the corresponding Lean functions.
-/

namespace EyeCare

/-- `status` enum of the `Reminder` mongoose schema. -/
inductive Status where
  | pending
  | sent
  | failed
deriving DecidableEq, Repr

/-- `notificationType` enum of the `Reminder` mongoose schema. -/
inductive Channel where
  | email
  | sms
deriving DecidableEq, Repr

/-- A `Reminder` document.  `dateTime = none` models a stored value whose
`new Date(...)` conversion is `NaN`; `some t` a valid epoch timestamp. -/
structure Reminder where
  id : String
  title : String
  note : String
  dateTime : Option Int
  notificationType : Channel
  contactInfo : String
  status : Status
  sentAt : Option Int
  error : Option String
deriving DecidableEq, Repr

/-- Outcome of one `transporter.sendMail` attempt. -/
inductive SendOutcome where
  | ok
  | err (msg : String)
deriving DecidableEq, Repr

/-- The `{ success, error }` result object of `sendEmailNotification`. -/
structure SendResult where
  success : Bool
  error : Option String
deriving DecidableEq, Repr

/-- Observable trace of one `sendEmailNotification` call: how many
`sendMail` attempts were performed, the backoff waits (ms) performed
between attempts, and the returned result object. -/
structure EmailTrace where
  attemptsMade : Nat
  delays : List Nat
  result : SendResult
deriving DecidableEq, Repr

/-- `const maxAttempts = 3` in `sendEmailNotification`. -/
def maxAttempts : Nat := 3

/-- The `while (attempt < maxAttempts)` loop of `sendEmailNotification`,
with the remaining loop iterations as fuel and `attempt` the counter.
`attemptResult k` is the outcome of the k-th `sendMail` call (1-based).
On success the loop returns `{success: true}`; on failure it either waits
`attempt * 700` ms and retries, or returns the last error. -/
def sendLoop (attemptResult : Nat → SendOutcome) : Nat → Nat → EmailTrace
  | 0, attempt => ⟨attempt, [], ⟨false, none⟩⟩
  | fuel + 1, attempt =>
    let a := attempt + 1
    match attemptResult a with
    | .ok => ⟨a, [], ⟨true, none⟩⟩
    | .err msg =>
      if a < maxAttempts then
        let rest := sendLoop attemptResult fuel a
        ⟨rest.attemptsMade, a * 700 :: rest.delays, rest.result⟩
      else
        ⟨a, [], ⟨false, some msg⟩⟩

/-- `sendEmailNotification`: fails fast when the transporter was not
constructed, otherwise runs the retry loop (3 attempts, linear backoff). -/
def sendEmailNotification (configured : Bool) (attemptResult : Nat → SendOutcome) :
    EmailTrace :=
  if configured then sendLoop attemptResult maxAttempts 0
  else ⟨0, [], ⟨false, some "Transporter not configured"⟩⟩

/-- JavaScript truthiness of an optional string env var: `undefined` and
`""` are falsy. -/
def falsyStr : Option String → Bool
  | none => true
  | some s => s == ""

/-- `rawEmailPass.replace(/\s+/g, "").trim()`: drop all whitespace. -/
def removeWhitespace (s : String) : String :=
  ⟨s.data.filter (fun c => !c.isWhitespace)⟩

/-- The constructor's credential check: the transporter is constructed
iff `EMAIL_USER` is truthy and the whitespace-stripped `EMAIL_PASSWORD`
is nonempty (`if (!emailUser || !emailPass) ... emailTransporter = null`). -/
def transporterConfigured (emailUser rawEmailPass : Option String) : Bool :=
  let emailPass := removeWhitespace (rawEmailPass.getD "")
  !(falsyStr emailUser || emailPass == "")

/-- **C4.** The retry envelope of `sendEmailNotification` makes at most 3
attempts; a first success at attempt 1, 2 or 3 stops the loop with a
success result after exactly the waits 700·1, …, 700·(k−1) ms; and when
all 3 attempts fail the result is a failure carrying the third attempt's
error, after waits of 700 ms and 1400 ms. -/
theorem c4_retry_envelope (attemptResult : Nat → SendOutcome) :
    (sendEmailNotification true attemptResult).attemptsMade ≤ 3 ∧
    (attemptResult 1 = .ok →
      sendEmailNotification true attemptResult = ⟨1, [], ⟨true, none⟩⟩) ∧
    (∀ m1, attemptResult 1 = .err m1 → attemptResult 2 = .ok →
      sendEmailNotification true attemptResult = ⟨2, [700], ⟨true, none⟩⟩) ∧
    (∀ m1 m2, attemptResult 1 = .err m1 → attemptResult 2 = .err m2 →
      attemptResult 3 = .ok →
      sendEmailNotification true attemptResult = ⟨3, [700, 1400], ⟨true, none⟩⟩) ∧
    (∀ m1 m2 m3, attemptResult 1 = .err m1 → attemptResult 2 = .err m2 →
      attemptResult 3 = .err m3 →
      sendEmailNotification true attemptResult = ⟨3, [700, 1400], ⟨false, some m3⟩⟩) := by
  refine ⟨?_, ?_, ?_, ?_, ?_⟩
  · rcases h1 : attemptResult 1 with _ | m1
    · simp [sendEmailNotification, sendLoop, maxAttempts, h1]
    · rcases h2 : attemptResult 2 with _ | m2
      · simp [sendEmailNotification, sendLoop, maxAttempts, h1, h2]
      · rcases h3 : attemptResult 3 with _ | m3 <;>
          simp [sendEmailNotification, sendLoop, maxAttempts, h1, h2, h3]
  · intro h1
    simp [sendEmailNotification, sendLoop, maxAttempts, h1]
  · intro m1 h1 h2
    simp [sendEmailNotification, sendLoop, maxAttempts, h1, h2]
  · intro m1 m2 h1 h2 h3
    simp [sendEmailNotification, sendLoop, maxAttempts, h1, h2, h3]
  · intro m1 m2 m3 h1 h2 h3
    simp [sendEmailNotification, sendLoop, maxAttempts, h1, h2, h3]

/-- Witness for C4: with a transport that always fails with "boom", the
envelope performs exactly 3 attempts, waits 700 then 1400 ms, and returns
the last error. -/
theorem c4_retry_envelope_witness :
    sendEmailNotification true (fun _ => .err "boom")
      = ⟨3, [700, 1400], ⟨false, some "boom"⟩⟩ :=
  (c4_retry_envelope (fun _ => .err "boom")).2.2.2.2 "boom" "boom" "boom" rfl rfl rfl

/-- **C8.** When the credentials are missing (the transporter was not
constructed), every send call returns the failure result immediately:
zero `sendMail` attempts, no retry waits, error "Transporter not
configured". -/
theorem c8_unconfigured_fails_fast (emailUser rawEmailPass : Option String)
    (attemptResult : Nat → SendOutcome)
    (h : transporterConfigured emailUser rawEmailPass = false) :
    sendEmailNotification (transporterConfigured emailUser rawEmailPass) attemptResult
      = ⟨0, [], ⟨false, some "Transporter not configured"⟩⟩ := by
  rw [h]
  simp [sendEmailNotification]

/-- Witness for C8: with no `EMAIL_USER` and no `EMAIL_PASSWORD` the
transporter is not constructed and a send returns the immediate failure. -/
theorem c8_unconfigured_fails_fast_witness :
    sendEmailNotification (transporterConfigured none none) (fun _ => .ok)
      = ⟨0, [], ⟨false, some "Transporter not configured"⟩⟩ :=
  c8_unconfigured_fails_fast none none (fun _ => .ok) rfl

/-- `result?.error || "Unknown error"`: JS `||` treats `undefined` and
the empty string as falsy. -/
def orUnknown : Option String → String
  | none => "Unknown error"
  | some s => if s == "" then "Unknown error" else s

/-- Ambient data of one timer-callback dispatch: whether the transporter
is configured, the per-attempt transport outcomes, whether
`reminder.save()` succeeds, and the wall clock at fire time. -/
structure DispatchCtx where
  configured : Bool
  attemptResult : Nat → SendOutcome
  saveOk : Bool
  now : Int

/-- State of the `NotificationService` singleton together with the
`Reminder` collection and two observability counters.  `table` is the
`scheduledJobs` map (insertion order as in a JS `Map`), `cancelled` the
handles on which `.cancel()` was called, `nextHandle` a fresh-handle
counter, `sendAttempts` the cumulative number of `sendMail` attempts and
`saveCalls` the cumulative number of `reminder.save()` invocations from
dispatch. -/
structure SchedState where
  table : List (String × Nat)
  cancelled : List Nat
  nextHandle : Nat
  store : List Reminder
  sendAttempts : Nat
  saveCalls : Nat
deriving DecidableEq, Repr

/-- The "Cancel existing job if present" block at the head of
`scheduleReminder`: cancel the id's job and delete its map entry. -/
def cancelExisting (s : SchedState) (id : String) : SchedState :=
  match s.table.find? (fun p => p.1 == id) with
  | some p =>
    { s with cancelled := p.2 :: s.cancelled,
             table := s.table.filter (fun q => q.1 != id) }
  | none => s

/-- `scheduleReminder(reminder)` at wall clock `now`: cancel any existing
job for the id, then reject an unparsable (`NaN`) or non-future
`dateTime` with `false`, otherwise register a one-shot timer and store
its handle in the table.  (For a valid strictly-future date,
`schedule.scheduleJob` returns a non-null job, so the `!job` branch of
the source is unreachable.) -/
def scheduleReminder (s : SchedState) (r : Reminder) (now : Int) : Bool × SchedState :=
  let s1 := cancelExisting s r.id
  match r.dateTime with
  | none => (false, s1)
  | some d =>
    if d ≤ now then (false, s1)
    else
      (true, { s1 with table := s1.table ++ [(r.id, s1.nextHandle)],
                       nextHandle := s1.nextHandle + 1 })

/-- `cancelScheduledReminder(reminderId)`: cancel and remove the entry if
present, returning whether one was found. -/
def cancelScheduledReminder (s : SchedState) (id : String) : Bool × SchedState :=
  match s.table.find? (fun p => p.1 == id) with
  | some p =>
    (true, { s with cancelled := p.2 :: s.cancelled,
                    table := s.table.filter (fun q => q.1 != id) })
  | none => (false, s)

/-- `cancelAllScheduled()`: cancel every job and clear the map. -/
def cancelAllScheduled (s : SchedState) : SchedState :=
  { s with cancelled := s.table.map Prod.snd ++ s.cancelled, table := [] }

/-- `_processReminder(reminder)`: send via email (or fail deterministically
for sms), then set the terminal status and delivery fields.  Returns the
mutated record and the transport trace; the caller decides whether the
subsequent `save()` persists it. -/
def _processReminder (r : Reminder) (ctx : DispatchCtx) : Reminder × EmailTrace :=
  let trace : EmailTrace :=
    match r.notificationType with
    | .email => sendEmailNotification ctx.configured ctx.attemptResult
    | .sms => ⟨0, [], ⟨false, some "SMS not implemented"⟩⟩
  let r1 :=
    if trace.result.success then
      { r with status := .sent, sentAt := some ctx.now, error := none }
    else
      { r with status := .failed, error := some (orUnknown trace.result.error) }
  (r1, trace)

/-- The `try` block of the timer callback: re-fetch the reminder by id;
if present and still pending, run `_processReminder` and attempt the
save (a failed `save()` is caught, leaving the store unchanged);
otherwise abort silently. -/
def dispatchBody (s : SchedState) (id : String) (ctx : DispatchCtx) : SchedState :=
  match s.store.find? (fun q => q.id == id) with
  | some r =>
    if r.status = Status.pending then
      if ctx.saveOk then
        { s with sendAttempts := s.sendAttempts + (_processReminder r ctx).2.attemptsMade,
                 saveCalls := s.saveCalls + 1,
                 store := s.store.map
                   (fun q => if q.id = id then (_processReminder r ctx).1 else q) }
      else
        { s with sendAttempts := s.sendAttempts + (_processReminder r ctx).2.attemptsMade,
                 saveCalls := s.saveCalls + 1 }
    else s
  | none => s

/-- The `finally` block of the timer callback:
`this.scheduledJobs.delete(reminderIdStr)`. -/
def removeEntry (s : SchedState) (id : String) : SchedState :=
  { s with table := s.table.filter (fun q => q.1 != id) }

/-- The timer callback registered by `scheduleReminder`, firing the timer
with handle `h`.  A handle not in the table (already consumed or
replaced) or already cancelled never fires.  Otherwise the callback runs
`dispatchBody` and finally removes the id's table entry. -/
def fireTimer (s : SchedState) (h : Nat) (ctx : DispatchCtx) : SchedState :=
  match s.table.find? (fun p => p.2 == h) with
  | none => s
  | some p =>
    if h ∈ s.cancelled then s
    else removeEntry (dispatchBody s p.1 ctx) p.1

/-- One externally triggerable step of the service: an API-layer
`scheduleReminder` or `cancelScheduledReminder` call, a shutdown
`cancelAllScheduled`, or the completion of a scheduled dispatch. -/
inductive Event where
  | schedule (r : Reminder) (now : Int)
  | cancel (id : String)
  | cancelAll
  | fire (h : Nat) (ctx : DispatchCtx)

/-- Step function over events. -/
def stepEvent (s : SchedState) (e : Event) : SchedState :=
  match e with
  | .schedule r now => (scheduleReminder s r now).2
  | .cancel id => (cancelScheduledReminder s id).2
  | .cancelAll => cancelAllScheduled s
  | .fire h ctx => fireTimer s h ctx

/-- The service right after construction: empty `scheduledJobs` map, a
given reminder collection. -/
def initState (store : List Reminder) : SchedState :=
  ⟨[], [], 0, store, 0, 0⟩

/-- The state reached from startup by a sequence of events. -/
def runEvents (store : List Reminder) (evs : List Event) : SchedState :=
  evs.foldl stepEvent (initState store)

/-- The Mongo query of `restorePendingReminders`:
`{ status: "pending", dateTime: { $gt: now } }`. -/
def qualifiesForRestore (now : Int) (r : Reminder) : Bool :=
  r.status == Status.pending &&
    (match r.dateTime with
     | some d => decide (now < d)
     | none => false)

/-- `restorePendingReminders()`: query the pending future reminders and
schedule each. -/
def restorePendingReminders (s : SchedState) (now : Int) : SchedState :=
  let pendingReminders := s.store.filter (qualifiesForRestore now)
  pendingReminders.foldl (fun acc r => (scheduleReminder acc r now).2) s

/-- The keys (reminder ids) of the scheduler table. -/
def tableKeys (s : SchedState) : List String :=
  s.table.map Prod.fst

/-- The live table entries for an id: entries whose timer was not
cancelled. -/
def liveEntries (s : SchedState) (id : String) : List (String × Nat) :=
  (s.table.filter (fun p => p.1 == id)).filter (fun p => !(s.cancelled.contains p.2))

/-- All handles in the table or cancelled set are below the fresh-handle
counter (holds in every reachable state). -/
def handlesBounded (s : SchedState) : Prop :=
  (∀ p ∈ s.table, p.2 < s.nextHandle) ∧ (∀ h ∈ s.cancelled, h < s.nextHandle)

/-! ### Helper lemmas -/

theorem find?_filter_ne_none (l : List (String × Nat)) (id : String) :
    (l.filter (fun q => q.1 != id)).find? (fun q => q.1 == id) = none := by
  rw [List.find?_eq_none]
  intro x hx
  rcases List.mem_filter.mp hx with ⟨-, hpred⟩
  simpa using bne_iff_ne.mp hpred

theorem cancelExisting_table_sublist (s : SchedState) (id : String) :
    (cancelExisting s id).table.Sublist s.table := by
  unfold cancelExisting
  split
  · exact List.filter_sublist _
  · exact List.Sublist.refl _

theorem cancelExisting_find?_none (s : SchedState) (id : String) :
    (cancelExisting s id).table.find? (fun p => p.1 == id) = none := by
  unfold cancelExisting
  split
  · exact find?_filter_ne_none _ _
  · next hfind => exact hfind

theorem cancelExisting_keys_not_mem (s : SchedState) (id : String) :
    id ∉ (cancelExisting s id).table.map Prod.fst := by
  intro hmem
  rcases List.mem_map.mp hmem with ⟨p, hp, hfst⟩
  have hnone := cancelExisting_find?_none s id
  rw [List.find?_eq_none] at hnone
  exact hnone p hp (by simp [hfst])

theorem cancelExisting_store (s : SchedState) (id : String) :
    (cancelExisting s id).store = s.store := by
  unfold cancelExisting
  split <;> rfl

theorem cancelExisting_nextHandle (s : SchedState) (id : String) :
    (cancelExisting s id).nextHandle = s.nextHandle := by
  unfold cancelExisting
  split <;> rfl

theorem cancelExisting_cancelled_mono (s : SchedState) (id : String) (x : Nat)
    (hx : x ∈ s.cancelled) : x ∈ (cancelExisting s id).cancelled := by
  unfold cancelExisting
  split
  · exact List.mem_cons_of_mem _ hx
  · exact hx

theorem cancelExisting_cancelled_sub (s : SchedState) (id : String) (x : Nat)
    (hx : x ∈ (cancelExisting s id).cancelled) :
    x ∈ s.cancelled ∨ ∃ p ∈ s.table, p.2 = x := by
  revert hx
  unfold cancelExisting
  split
  · next p hfind =>
    intro hx
    rcases List.mem_cons.mp hx with h | h
    · exact Or.inr ⟨p, List.mem_of_find?_eq_some hfind, h.symm⟩
    · exact Or.inl h
  · exact fun hx => Or.inl hx

theorem scheduleReminder_none (s : SchedState) (r : Reminder) (now : Int)
    (h : r.dateTime = none) :
    scheduleReminder s r now = (false, cancelExisting s r.id) := by
  unfold scheduleReminder
  rw [h]

theorem scheduleReminder_past (s : SchedState) (r : Reminder) (now : Int) (d : Int)
    (h : r.dateTime = some d) (hle : d ≤ now) :
    scheduleReminder s r now = (false, cancelExisting s r.id) := by
  unfold scheduleReminder
  rw [h]
  simp [hle]

theorem scheduleReminder_future (s : SchedState) (r : Reminder) (now : Int) (d : Int)
    (h : r.dateTime = some d) (hlt : now < d) :
    scheduleReminder s r now =
      (true, { cancelExisting s r.id with
               table := (cancelExisting s r.id).table ++ [(r.id, s.nextHandle)],
               nextHandle := s.nextHandle + 1 }) := by
  unfold scheduleReminder
  rw [h]
  simp [not_le.mpr hlt, cancelExisting_nextHandle]

theorem scheduleReminder_store (s : SchedState) (r : Reminder) (now : Int) :
    (scheduleReminder s r now).2.store = s.store := by
  rcases h : r.dateTime with - | d
  · rw [scheduleReminder_none s r now h]
    exact cancelExisting_store s r.id
  · rcases le_or_lt d now with hle | hlt
    · rw [scheduleReminder_past s r now d h hle]
      exact cancelExisting_store s r.id
    · rw [scheduleReminder_future s r now d h hlt]
      exact cancelExisting_store s r.id

theorem _processReminder_id (r : Reminder) (ctx : DispatchCtx) :
    (_processReminder r ctx).1.id = r.id := by
  unfold _processReminder
  dsimp only
  split <;> rfl

theorem _processReminder_spec (r : Reminder) (ctx : DispatchCtx) :
    ((_processReminder r ctx).1.status = Status.sent ∧
      (_processReminder r ctx).1.sentAt = some ctx.now ∧
      (_processReminder r ctx).1.error = none) ∨
    ((_processReminder r ctx).1.status = Status.failed ∧
      ∃ m, (_processReminder r ctx).1.error = some m) := by
  unfold _processReminder
  dsimp only
  split
  · exact Or.inl ⟨rfl, rfl, rfl⟩
  · exact Or.inr ⟨rfl, _, rfl⟩

theorem dispatchBody_table (s : SchedState) (id : String) (ctx : DispatchCtx) :
    (dispatchBody s id ctx).table = s.table := by
  unfold dispatchBody
  split
  · split
    · split <;> rfl
    · rfl
  · rfl

theorem dispatchBody_cancelled (s : SchedState) (id : String) (ctx : DispatchCtx) :
    (dispatchBody s id ctx).cancelled = s.cancelled := by
  unfold dispatchBody
  split
  · split
    · split <;> rfl
    · rfl
  · rfl

theorem dispatchBody_nextHandle (s : SchedState) (id : String) (ctx : DispatchCtx) :
    (dispatchBody s id ctx).nextHandle = s.nextHandle := by
  unfold dispatchBody
  split
  · split
    · split <;> rfl
    · rfl
  · rfl

theorem find?_update_self (store : List Reminder) (tid : String) (nr : Reminder)
    (hid : nr.id = tid) (r0 : Reminder)
    (h : store.find? (fun q => q.id == tid) = some r0) :
    (store.map (fun q => if q.id = tid then nr else q)).find? (fun q => q.id == tid)
      = some nr := by
  induction store with
  | nil => simp at h
  | cons q t ih =>
    simp only [List.map_cons]
    by_cases hq : q.id = tid
    · rw [if_pos hq]
      exact @List.find?_cons_of_pos _ (fun q => q.id == tid) nr _ (beq_iff_eq.mpr hid)
    · rw [if_neg hq,
        @List.find?_cons_of_neg _ (fun q => q.id == tid) q _ (by simp [hq])]
      rw [@List.find?_cons_of_neg _ (fun q => q.id == tid) q _ (by simp [hq])] at h
      exact ih h

theorem find?_update_other (store : List Reminder) (tid : String) (nr : Reminder)
    (hid : nr.id = tid) (id : String) (hne : tid ≠ id) :
    (store.map (fun q => if q.id = tid then nr else q)).find? (fun q => q.id == id)
      = store.find? (fun q => q.id == id) := by
  induction store with
  | nil => rfl
  | cons q t ih =>
    simp only [List.map_cons]
    by_cases hq : q.id = tid
    · rw [if_pos hq,
        @List.find?_cons_of_neg _ (fun q => q.id == id) nr _
          (by simp [hid, hne]),
        @List.find?_cons_of_neg _ (fun q => q.id == id) q _
          (by simp [hq]; exact hne)]
      exact ih
    · rw [if_neg hq]
      by_cases hq2 : q.id = id
      · rw [@List.find?_cons_of_pos _ (fun q => q.id == id) q _ (by simp [hq2]),
          @List.find?_cons_of_pos _ (fun q => q.id == id) q _ (by simp [hq2])]
      · rw [@List.find?_cons_of_neg _ (fun q => q.id == id) q _ (by simp [hq2]),
          @List.find?_cons_of_neg _ (fun q => q.id == id) q _ (by simp [hq2])]
        exact ih

/-! ### Concrete fixtures for witnesses -/

/-- A pending email reminder due at epoch instant 50. -/
def rFuture : Reminder :=
  ⟨"r1", "Take meds", "after lunch", some 50, Channel.email, "a@b.com",
    Status.pending, none, none⟩

/-- The same reminder with a past due instant. -/
def rPast : Reminder := { rFuture with dateTime := some 5 }

/-- The same reminder with an unparsable (`NaN`) `dateTime`. -/
def rBad : Reminder := { rFuture with dateTime := none }

/-- The same reminder already marked sent. -/
def rSent : Reminder := { rFuture with status := Status.sent }

/-- Service with no jobs and empty store. -/
def sEmpty : SchedState := initState []

/-- Service with one live job for id "r1" and empty store. -/
def sWithJob : SchedState := ⟨[("r1", 0)], [], 1, [], 0, 0⟩

/-- Service with one live job for id "r1" whose stored record is already
sent. -/
def sSent : SchedState := ⟨[("r1", 0)], [], 1, [rSent], 0, 0⟩

/-- Service with one live job for id "r1" and its pending record. -/
def sPend : SchedState := ⟨[("r1", 0)], [], 1, [rFuture], 0, 0⟩

/-- Dispatch context: transporter configured, first attempt succeeds,
save fails. -/
def ctxNoSave : DispatchCtx := ⟨true, fun _ => SendOutcome.ok, false, 100⟩

/-- Dispatch context: transporter configured, first attempt succeeds,
save succeeds. -/
def ctxSave : DispatchCtx := ⟨true, fun _ => SendOutcome.ok, true, 100⟩

/-- The record `rFuture` after a successful dispatch at instant 100. -/
def rDone : Reminder :=
  { rFuture with status := Status.sent, sentAt := some 100, error := none }

/-! ### Claims about the schedule path -/

/-- **C6.** A reminder whose `dateTime` is now-or-past is refused by
`scheduleReminder`: the call returns `false`, afterwards the table has no
entry for the reminder's id, and no timer was allocated. -/
theorem c6_past_schedule_rejected (s : SchedState) (r : Reminder) (now d : Int)
    (h : r.dateTime = some d) (hle : d ≤ now) :
    (scheduleReminder s r now).1 = false ∧
    (scheduleReminder s r now).2.table.find? (fun p => p.1 == r.id) = none ∧
    (scheduleReminder s r now).2.nextHandle = s.nextHandle := by
  rw [scheduleReminder_past s r now d h hle]
  exact ⟨rfl, cancelExisting_find?_none s r.id, cancelExisting_nextHandle s r.id⟩

/-- Witness for C6 at a concrete past-dated reminder. -/
theorem c6_past_schedule_rejected_witness :
    (scheduleReminder sEmpty rPast 10).1 = false ∧
    (scheduleReminder sEmpty rPast 10).2.table.find? (fun p => p.1 == rPast.id) = none ∧
    (scheduleReminder sEmpty rPast 10).2.nextHandle = sEmpty.nextHandle :=
  c6_past_schedule_rejected sEmpty rPast 10 5 rfl (by decide)

/-- **C10.** A reminder whose `dateTime` does not parse (`NaN`) makes
`scheduleReminder` return `false` without registering any timer or table
entry for it; the invalid date is a handled failure branch, not undefined
behaviour (modelled by the totality of `scheduleReminder`). -/
theorem c10_invalid_date_rejected (s : SchedState) (r : Reminder) (now : Int)
    (h : r.dateTime = none) :
    (scheduleReminder s r now).1 = false ∧
    (scheduleReminder s r now).2.table.find? (fun p => p.1 == r.id) = none ∧
    (scheduleReminder s r now).2.nextHandle = s.nextHandle := by
  rw [scheduleReminder_none s r now h]
  exact ⟨rfl, cancelExisting_find?_none s r.id, cancelExisting_nextHandle s r.id⟩

/-- Witness for C10 at a concrete invalid-date reminder. -/
theorem c10_invalid_date_rejected_witness :
    (scheduleReminder sEmpty rBad 10).1 = false ∧
    (scheduleReminder sEmpty rBad 10).2.table.find? (fun p => p.1 == rBad.id) = none ∧
    (scheduleReminder sEmpty rBad 10).2.nextHandle = sEmpty.nextHandle :=
  c10_invalid_date_rejected sEmpty rBad 10 rfl

/-- **C7, counterexample.** The claim says a rejected `scheduleReminder`
call leaves a pre-existing live entry for the same id present and live.
In the code the cancel-and-replace block runs before the future-only
check: scheduling a past-dated reminder over a live entry returns
`false`, yet the table is emptied and the old handle is cancelled. -/
theorem c7_rejection_not_atomic_counterexample :
    (scheduleReminder sWithJob rPast 10).1 = false ∧
    (scheduleReminder sWithJob rPast 10).2.table = [] ∧
    0 ∈ (scheduleReminder sWithJob rPast 10).2.cancelled := by
  decide

/-- **C7, amended.** When `scheduleReminder` rejects a non-future
reminder it inserts no new entry and allocates no handle, but the
rejection is not atomic for the table: the resulting state is exactly the
one after the cancel-and-replace step, so a live entry already registered
for that id has been cancelled and removed, the table being otherwise
unchanged. -/
theorem c7_rejection_after_cancel (s : SchedState) (r : Reminder) (now d : Int)
    (h : r.dateTime = some d) (hle : d ≤ now) :
    (scheduleReminder s r now).1 = false ∧
    (scheduleReminder s r now).2 = cancelExisting s r.id ∧
    ∀ p, s.table.find? (fun q => q.1 == r.id) = some p →
      p.2 ∈ (scheduleReminder s r now).2.cancelled ∧
      (scheduleReminder s r now).2.table = s.table.filter (fun q => q.1 != r.id) := by
  rw [scheduleReminder_past s r now d h hle]
  refine ⟨rfl, rfl, ?_⟩
  intro p hp
  unfold cancelExisting
  rw [hp]
  exact ⟨List.mem_cons_self _ _, rfl⟩

/-- Witness for the amended C7 at the concrete state with a live "r1"
entry. -/
theorem c7_rejection_after_cancel_witness :
    (scheduleReminder sWithJob rPast 10).1 = false ∧
    (scheduleReminder sWithJob rPast 10).2 = cancelExisting sWithJob rPast.id ∧
    (0 ∈ (scheduleReminder sWithJob rPast 10).2.cancelled ∧
      (scheduleReminder sWithJob rPast 10).2.table
        = sWithJob.table.filter (fun q => q.1 != rPast.id)) := by
  have h := c7_rejection_after_cancel sWithJob rPast 10 5 rfl (by decide)
  exact ⟨h.1, h.2.1, h.2.2 ("r1", 0) rfl⟩

/-! ### Claims about the dispatch path -/

/-- **C3.** When a live timer fires but the re-fetched record is absent
or no longer pending, the dispatch aborts silently: the store is
untouched, no transport attempt is made and no save is invoked. -/
theorem c3_dispatch_aborts_silently (s : SchedState) (h : Nat) (ctx : DispatchCtx)
    (p : String × Nat)
    (hfind : s.table.find? (fun q => q.2 == h) = some p)
    (hnp : ∀ r, s.store.find? (fun q => q.id == p.1) = some r →
      r.status ≠ Status.pending) :
    (fireTimer s h ctx).store = s.store ∧
    (fireTimer s h ctx).sendAttempts = s.sendAttempts ∧
    (fireTimer s h ctx).saveCalls = s.saveCalls := by
  unfold fireTimer
  split
  · exact ⟨rfl, rfl, rfl⟩
  · next p2 heq =>
    rw [hfind] at heq
    injection heq with hpp
    subst hpp
    split
    · exact ⟨rfl, rfl, rfl⟩
    · have hbody : dispatchBody s p.1 ctx = s := by
        unfold dispatchBody
        split
        · next r hr => rw [if_neg (hnp r hr)]
        · rfl
      rw [hbody]
      exact ⟨rfl, rfl, rfl⟩

/-- Witness for C3: a live timer for "r1" fires while the stored record
is already sent; nothing is sent or written. -/
theorem c3_dispatch_aborts_silently_witness :
    (fireTimer sSent 0 ctxNoSave).store = sSent.store ∧
    (fireTimer sSent 0 ctxNoSave).sendAttempts = sSent.sendAttempts ∧
    (fireTimer sSent 0 ctxNoSave).saveCalls = sSent.saveCalls := by
  refine c3_dispatch_aborts_silently sSent 0 ctxNoSave ("r1", 0) rfl ?_
  intro r hr
  have h2 : (some rSent : Option Reminder) = some r := hr
  injection h2 with h3
  rw [← h3]
  decide

/-- **C9.** Once a live timer has fired, the id's table entry is removed
whatever the delivery outcome and whatever the fate of the status write;
a failing save is swallowed (the store is then unchanged) and, the
callback being modelled by a total function, no exception escapes it. -/
theorem c9_entry_removed_after_fire (s : SchedState) (h : Nat) (ctx : DispatchCtx)
    (p : String × Nat)
    (hfind : s.table.find? (fun q => q.2 == h) = some p)
    (hc : h ∉ s.cancelled) :
    (fireTimer s h ctx).table.find? (fun q => q.1 == p.1) = none ∧
    (ctx.saveOk = false → (fireTimer s h ctx).store = s.store) := by
  unfold fireTimer
  split
  · next heq => rw [hfind] at heq; cases heq
  · next p2 heq =>
    rw [hfind] at heq
    injection heq with hpp
    subst hpp
    rw [if_neg hc]
    constructor
    · exact find?_filter_ne_none _ _
    · intro hsave
      show (dispatchBody s p.1 ctx).store = s.store
      unfold dispatchBody
      split
      · next r hr =>
        by_cases hp2 : r.status = Status.pending
        · rw [if_pos hp2, if_neg (by rw [hsave]; exact Bool.false_ne_true)]
        · rw [if_neg hp2]
      · rfl

/-- Witness for C9: a live "r1" timer fires with a failing save; the
entry is gone and the store untouched. -/
theorem c9_entry_removed_after_fire_witness :
    (fireTimer sPend 0 ctxNoSave).table.find? (fun q => q.1 == "r1") = none ∧
    (ctxNoSave.saveOk = false → (fireTimer sPend 0 ctxNoSave).store = sPend.store) :=
  c9_entry_removed_after_fire sPend 0 ctxNoSave ("r1", 0) rfl (by simp [sPend])

theorem cancelScheduledReminder_store (s : SchedState) (id : String) :
    (cancelScheduledReminder s id).2.store = s.store := by
  unfold cancelScheduledReminder
  split <;> rfl

theorem dispatchBody_store_spec (s : SchedState) (tid : String) (ctx : DispatchCtx) :
    (dispatchBody s tid ctx).store = s.store ∨
    ∃ r0, s.store.find? (fun q => q.id == tid) = some r0 ∧
      r0.status = Status.pending ∧
      (dispatchBody s tid ctx).store
        = s.store.map (fun q => if q.id = tid then (_processReminder r0 ctx).1 else q) := by
  unfold dispatchBody
  split
  · next r0 hr0 =>
    by_cases hp : r0.status = Status.pending
    · rw [if_pos hp]
      by_cases hsave : ctx.saveOk = true
      · rw [if_pos hsave]
        exact Or.inr ⟨r0, hr0, hp, rfl⟩
      · rw [if_neg hsave]
        exact Or.inl rfl
    · rw [if_neg hp]
      exact Or.inl rfl
  · exact Or.inl rfl

/-- **C5.** Between any state and its successor under any core operation,
a stored reminder's record either is unchanged or moves from pending to a
terminal status: to sent with `sentAt` set and the error cleared, or to
failed with an error recorded.  In particular a sent or failed record is
never moved back to pending. -/
theorem c5_status_transitions (s : SchedState) (e : Event) (id : String)
    (r r1 : Reminder)
    (hr : s.store.find? (fun q => q.id == id) = some r)
    (hr1 : (stepEvent s e).store.find? (fun q => q.id == id) = some r1) :
    r1 = r ∨ (r.status = Status.pending ∧
      ((r1.status = Status.sent ∧ (∃ t, r1.sentAt = some t) ∧ r1.error = none) ∨
       (r1.status = Status.failed ∧ ∃ m, r1.error = some m))) := by
  cases e with
  | schedule r2 now =>
    rw [show (stepEvent s (Event.schedule r2 now)).store
        = (scheduleReminder s r2 now).2.store from rfl,
      scheduleReminder_store] at hr1
    exact Or.inl (Option.some.inj (hr.symm.trans hr1)).symm
  | cancel cid =>
    rw [show (stepEvent s (Event.cancel cid)).store
        = (cancelScheduledReminder s cid).2.store from rfl,
      cancelScheduledReminder_store] at hr1
    exact Or.inl (Option.some.inj (hr.symm.trans hr1)).symm
  | cancelAll =>
    rw [show (stepEvent s Event.cancelAll).store = s.store from rfl] at hr1
    exact Or.inl (Option.some.inj (hr.symm.trans hr1)).symm
  | fire h ctx =>
    have hs : stepEvent s (Event.fire h ctx) = fireTimer s h ctx := rfl
    rw [hs] at hr1
    unfold fireTimer at hr1
    split at hr1
    · exact Or.inl (Option.some.inj (hr.symm.trans hr1)).symm
    · next p heq =>
      split at hr1
      · exact Or.inl (Option.some.inj (hr.symm.trans hr1)).symm
      · rw [show (removeEntry (dispatchBody s p.1 ctx) p.1).store
            = (dispatchBody s p.1 ctx).store from rfl] at hr1
        rcases dispatchBody_store_spec s p.1 ctx with hds | ⟨r0, hr0, hp, hds⟩
        · rw [hds] at hr1
          exact Or.inl (Option.some.inj (hr.symm.trans hr1)).symm
        · rw [hds] at hr1
          have hr0id : r0.id = p.1 :=
            beq_iff_eq.mp (@List.find?_some _ (fun q => q.id == p.1) r0 s.store hr0)
          have hprid : (_processReminder r0 ctx).1.id = p.1 := by
            rw [_processReminder_id]; exact hr0id
          by_cases hid : p.1 = id
          · subst hid
            have hrr0 : r = r0 := Option.some.inj (hr.symm.trans hr0)
            rw [find?_update_self s.store p.1 (_processReminder r0 ctx).1 hprid r0 hr0]
              at hr1
            have hr1e : r1 = (_processReminder r0 ctx).1 := (Option.some.inj hr1).symm
            refine Or.inr ⟨by rw [hrr0]; exact hp, ?_⟩
            rcases _processReminder_spec r0 ctx with ⟨h1, h2, h3⟩ | ⟨h1, m, h2⟩
            · exact Or.inl ⟨by rw [hr1e]; exact h1, ⟨ctx.now, by rw [hr1e]; exact h2⟩,
                by rw [hr1e]; exact h3⟩
            · exact Or.inr ⟨by rw [hr1e]; exact h1, m, by rw [hr1e]; exact h2⟩
          · rw [find?_update_other s.store p.1 (_processReminder r0 ctx).1 hprid id hid]
              at hr1
            exact Or.inl (Option.some.inj (hr.symm.trans hr1)).symm

/-- Witness for C5: firing the live timer of a pending reminder with a
succeeding transport and save yields its sent record. -/
theorem c5_status_transitions_witness :
    rDone = rFuture ∨ (rFuture.status = Status.pending ∧
      ((rDone.status = Status.sent ∧ (∃ t, rDone.sentAt = some t) ∧ rDone.error = none) ∨
       (rDone.status = Status.failed ∧ ∃ m, rDone.error = some m))) :=
  c5_status_transitions sPend (Event.fire 0 ctxSave) "r1" rFuture rDone rfl rfl

theorem cancelScheduledReminder_table_sublist (s : SchedState) (id : String) :
    (cancelScheduledReminder s id).2.table.Sublist s.table := by
  unfold cancelScheduledReminder
  split
  · exact List.filter_sublist _
  · exact List.Sublist.refl _

theorem fireTimer_table_sublist (s : SchedState) (h : Nat) (ctx : DispatchCtx) :
    (fireTimer s h ctx).table.Sublist s.table := by
  unfold fireTimer
  split
  · exact List.Sublist.refl _
  · next p heq =>
    split
    · exact List.Sublist.refl _
    · show ((dispatchBody s p.1 ctx).table.filter (fun q => q.1 != p.1)).Sublist s.table
      rw [dispatchBody_table]
      exact List.filter_sublist _

theorem tableKeys_nodup_stepEvent (s : SchedState) (e : Event)
    (hs : (tableKeys s).Nodup) : (tableKeys (stepEvent s e)).Nodup := by
  cases e with
  | schedule r now =>
    show ((scheduleReminder s r now).2.table.map Prod.fst).Nodup
    rcases hdt : r.dateTime with - | d
    · rw [scheduleReminder_none s r now hdt]
      exact List.Nodup.sublist ((cancelExisting_table_sublist s r.id).map Prod.fst) hs
    · rcases le_or_lt d now with hle | hlt
      · rw [scheduleReminder_past s r now d hdt hle]
        exact List.Nodup.sublist ((cancelExisting_table_sublist s r.id).map Prod.fst) hs
      · rw [scheduleReminder_future s r now d hdt hlt]
        show ((((cancelExisting s r.id).table) ++ [(r.id, s.nextHandle)]).map Prod.fst).Nodup
        simp only [List.map_append, List.map_cons, List.map_nil]
        rw [List.nodup_append]
        refine ⟨List.Nodup.sublist ((cancelExisting_table_sublist s r.id).map Prod.fst) hs,
          List.nodup_singleton _, ?_⟩
        rw [List.disjoint_singleton]
        exact cancelExisting_keys_not_mem s r.id
  | cancel id =>
    exact List.Nodup.sublist ((cancelScheduledReminder_table_sublist s id).map Prod.fst) hs
  | cancelAll =>
    exact List.nodup_nil
  | fire h ctx =>
    exact List.Nodup.sublist ((fireTimer_table_sublist s h ctx).map Prod.fst) hs

theorem handlesBounded_cancelExisting (s : SchedState) (id : String)
    (hb : handlesBounded s) : handlesBounded (cancelExisting s id) := by
  obtain ⟨h1, h2⟩ := hb
  unfold cancelExisting
  split
  · next p hfind =>
    refine ⟨fun q hq => h1 q (List.mem_of_mem_filter hq), fun x hx => ?_⟩
    rcases List.mem_cons.mp hx with h | h
    · exact h ▸ h1 p (List.mem_of_find?_eq_some hfind)
    · exact h2 x h
  · exact ⟨h1, h2⟩

theorem handlesBounded_stepEvent (s : SchedState) (e : Event)
    (hb : handlesBounded s) : handlesBounded (stepEvent s e) := by
  cases e with
  | schedule r now =>
    show handlesBounded (scheduleReminder s r now).2
    rcases hdt : r.dateTime with - | d
    · rw [scheduleReminder_none s r now hdt]
      exact handlesBounded_cancelExisting s r.id hb
    · rcases le_or_lt d now with hle | hlt
      · rw [scheduleReminder_past s r now d hdt hle]
        exact handlesBounded_cancelExisting s r.id hb
      · rw [scheduleReminder_future s r now d hdt hlt]
        obtain ⟨h1, h2⟩ := handlesBounded_cancelExisting s r.id hb
        constructor
        · intro q hq
          rcases List.mem_append.mp hq with h | h
          · have h3 := h1 q h
            rw [cancelExisting_nextHandle] at h3
            exact Nat.lt_succ_of_lt h3
          · rw [List.mem_singleton.mp h]
            exact Nat.lt_succ_self _
        · intro x hx
          have h3 := h2 x hx
          rw [cancelExisting_nextHandle] at h3
          exact Nat.lt_succ_of_lt h3
  | cancel id =>
    obtain ⟨h1, h2⟩ := hb
    show handlesBounded (cancelScheduledReminder s id).2
    unfold cancelScheduledReminder
    split
    · next p hfind =>
      refine ⟨fun q hq => h1 q (List.mem_of_mem_filter hq), fun x hx => ?_⟩
      rcases List.mem_cons.mp hx with h | h
      · exact h ▸ h1 p (List.mem_of_find?_eq_some hfind)
      · exact h2 x h
    · exact ⟨h1, h2⟩
  | cancelAll =>
    obtain ⟨h1, h2⟩ := hb
    constructor
    · intro q hq
      exact absurd hq (List.not_mem_nil q)
    · intro x hx
      rcases List.mem_append.mp hx with h | h
      · rcases List.mem_map.mp h with ⟨q, hq, hsnd⟩
        exact hsnd ▸ h1 q hq
      · exact h2 x h
  | fire h ctx =>
    obtain ⟨h1, h2⟩ := hb
    show handlesBounded (fireTimer s h ctx)
    unfold fireTimer
    split
    · exact ⟨h1, h2⟩
    · next p heq =>
      split
      · exact ⟨h1, h2⟩
      · constructor
        · intro q hq
          have hq2 : q ∈ (dispatchBody s p.1 ctx).table := List.mem_of_mem_filter hq
          rw [dispatchBody_table] at hq2
          show q.2 < (dispatchBody s p.1 ctx).nextHandle
          rw [dispatchBody_nextHandle]
          exact h1 q hq2
        · intro x hx
          have hx2 : x ∈ (dispatchBody s p.1 ctx).cancelled := hx
          rw [dispatchBody_cancelled] at hx2
          show x < (dispatchBody s p.1 ctx).nextHandle
          rw [dispatchBody_nextHandle]
          exact h2 x hx2

theorem runEvents_nodup_bounded (store : List Reminder) (evs : List Event) :
    (tableKeys (runEvents store evs)).Nodup ∧ handlesBounded (runEvents store evs) := by
  suffices h : ∀ (l : List Event) (s : SchedState),
      (tableKeys s).Nodup → handlesBounded s →
      (tableKeys (l.foldl stepEvent s)).Nodup ∧ handlesBounded (l.foldl stepEvent s) by
    refine h evs (initState store) List.nodup_nil
      ⟨fun q hq => absurd hq (List.not_mem_nil q),
       fun x hx => absurd hx (List.not_mem_nil x)⟩
  intro l
  induction l with
  | nil => exact fun s h1 h2 => ⟨h1, h2⟩
  | cons e t ih =>
    intro s h1 h2
    exact ih (stepEvent s e) (tableKeys_nodup_stepEvent s e h1)
      (handlesBounded_stepEvent s e h2)

theorem cancelExisting_no_key (s : SchedState) (id : String) :
    ∀ q ∈ (cancelExisting s id).table, q.1 ≠ id := by
  intro q hq
  have hnone := cancelExisting_find?_none s id
  rw [List.find?_eq_none] at hnone
  have h3 := hnone q hq
  simpa using h3

theorem cancelExisting_key_filter_nil (s : SchedState) (id : String) :
    (cancelExisting s id).table.filter (fun q => q.1 == id) = [] :=
  List.filter_eq_nil_iff.mpr (fun q hq => by
    simp only [beq_iff_eq]
    exact cancelExisting_no_key s id q hq)

theorem filter_key_length_le_one (l : List (String × Nat))
    (h : (l.map Prod.fst).Nodup) (id : String) :
    (l.filter (fun p => p.1 == id)).length ≤ 1 := by
  induction l with
  | nil => simp
  | cons q t ih =>
    rw [List.map_cons, List.nodup_cons] at h
    by_cases hq : q.1 = id
    · rw [List.filter_cons_of_pos (by simp [hq])]
      have ht : t.filter (fun p => p.1 == id) = [] := by
        rw [List.filter_eq_nil_iff]
        intro p hp hpred
        have hmem : p.1 ∈ t.map Prod.fst := List.mem_map_of_mem Prod.fst hp
        rw [show p.1 = q.1 from (beq_iff_eq.mp hpred).trans hq.symm] at hmem
        exact h.1 hmem
      rw [ht]
      exact Nat.le_refl 1
    · rw [List.filter_cons_of_neg (by simp [hq])]
      exact ih h.2

theorem scheduleReminder_future_snd (s : SchedState) (r : Reminder) (now d : Int)
    (h : r.dateTime = some d) (hlt : now < d) :
    (scheduleReminder s r now).2 =
      { cancelExisting s r.id with
        table := (cancelExisting s r.id).table ++ [(r.id, s.nextHandle)],
        nextHandle := s.nextHandle + 1 } := by
  rw [scheduleReminder_future s r now d h hlt]

theorem schedF_table (s : SchedState) (r : Reminder) (now d : Int)
    (h : r.dateTime = some d) (hlt : now < d) :
    (scheduleReminder s r now).2.table
      = (cancelExisting s r.id).table ++ [(r.id, s.nextHandle)] := by
  rw [scheduleReminder_future_snd s r now d h hlt]

theorem schedF_cancelled (s : SchedState) (r : Reminder) (now d : Int)
    (h : r.dateTime = some d) (hlt : now < d) :
    (scheduleReminder s r now).2.cancelled = (cancelExisting s r.id).cancelled := by
  rw [scheduleReminder_future_snd s r now d h hlt]

theorem schedF_nextHandle (s : SchedState) (r : Reminder) (now d : Int)
    (h : r.dateTime = some d) (hlt : now < d) :
    (scheduleReminder s r now).2.nextHandle = s.nextHandle + 1 := by
  rw [scheduleReminder_future_snd s r now d h hlt]

theorem cancelExisting_table_of_some (s : SchedState) (id : String) (p : String × Nat)
    (h : s.table.find? (fun q => q.1 == id) = some p) :
    (cancelExisting s id).table = s.table.filter (fun q => q.1 != id) := by
  unfold cancelExisting
  rw [h]

theorem cancelExisting_cancelled_of_some (s : SchedState) (id : String)
    (p : String × Nat) (h : s.table.find? (fun q => q.1 == id) = some p) :
    (cancelExisting s id).cancelled = p.2 :: s.cancelled := by
  unfold cancelExisting
  rw [h]

/-- **C1.** The Scheduler Table holds at most one live handle per id:
every reachable state has duplicate-free table keys, bounded handles and
at most one live entry per id; scheduling over an existing entry cancels
the old handle and leaves the new one as the only entry for the id; and
two `scheduleReminder` calls in succession leave exactly one live entry
for the id, the first handle being cancelled so that its timer firing is
a no-op (exactly one eventual dispatch remains possible). -/
theorem c1_at_most_one_live_handle :
    (∀ store evs, (tableKeys (runEvents store evs)).Nodup ∧
      handlesBounded (runEvents store evs) ∧
      ∀ id, (liveEntries (runEvents store evs) id).length ≤ 1) ∧
    (∀ s r now d p, r.dateTime = some d → now < d →
      s.table.find? (fun q => q.1 == r.id) = some p →
      p.2 ∈ (scheduleReminder s r now).2.cancelled ∧
      (scheduleReminder s r now).2.table.filter (fun q => q.1 == r.id)
        = [(r.id, s.nextHandle)]) ∧
    (∀ s r now d, handlesBounded s → r.dateTime = some d → now < d →
      liveEntries ((scheduleReminder ((scheduleReminder s r now).2) r now).2) r.id
        = [(r.id, s.nextHandle + 1)] ∧
      s.nextHandle ∈ ((scheduleReminder ((scheduleReminder s r now).2) r now).2).cancelled ∧
      ∀ ctx, fireTimer ((scheduleReminder ((scheduleReminder s r now).2) r now).2)
          s.nextHandle ctx
        = (scheduleReminder ((scheduleReminder s r now).2) r now).2) := by
  refine ⟨?_, ?_, ?_⟩
  · intro store evs
    obtain ⟨hnd, hb⟩ := runEvents_nodup_bounded store evs
    refine ⟨hnd, hb, fun id => ?_⟩
    exact le_trans (List.length_filter_le _ _) (filter_key_length_le_one _ hnd id)
  · intro s r now d p hdt hlt hp
    rw [scheduleReminder_future_snd s r now d hdt hlt]
    constructor
    · show p.2 ∈ (cancelExisting s r.id).cancelled
      unfold cancelExisting
      rw [hp]
      exact List.mem_cons_self _ _
    · show ((cancelExisting s r.id).table ++ [(r.id, s.nextHandle)]).filter
          (fun q => q.1 == r.id) = [(r.id, s.nextHandle)]
      rw [List.filter_append, cancelExisting_key_filter_nil]
      simp
  · intro s r now d hb hdt hlt
    have hC := handlesBounded_cancelExisting s r.id hb
    have hT1 := schedF_table s r now d hdt hlt
    have hX1 := schedF_cancelled s r now d hdt hlt
    have hN1 := schedF_nextHandle s r now d hdt hlt
    have hfind1 : (scheduleReminder s r now).2.table.find? (fun p => p.1 == r.id)
        = some (r.id, s.nextHandle) := by
      rw [hT1, List.find?_append, cancelExisting_find?_none, Option.none_or]
      simp [List.find?_cons]
    have hT2 := schedF_table ((scheduleReminder s r now).2) r now d hdt hlt
    have hX2 := schedF_cancelled ((scheduleReminder s r now).2) r now d hdt hlt
    have hCT := cancelExisting_table_of_some ((scheduleReminder s r now).2) r.id
      (r.id, s.nextHandle) hfind1
    have hCX := cancelExisting_cancelled_of_some ((scheduleReminder s r now).2) r.id
      (r.id, s.nextHandle) hfind1
    have hfilter : (scheduleReminder s r now).2.table.filter (fun q => q.1 != r.id)
        = (cancelExisting s r.id).table := by
      rw [hT1, List.filter_append]
      have ha : (cancelExisting s r.id).table.filter (fun q => q.1 != r.id)
          = (cancelExisting s r.id).table :=
        List.filter_eq_self.mpr
          (fun q hq => bne_iff_ne.mpr (cancelExisting_no_key s r.id q hq))
      have hb2 : [((r.id : String), s.nextHandle)].filter (fun q => q.1 != r.id)
          = [] := by simp
      rw [ha, hb2, List.append_nil]
    have hT2e : (scheduleReminder ((scheduleReminder s r now).2) r now).2.table
        = (cancelExisting s r.id).table ++ [(r.id, s.nextHandle + 1)] := by
      rw [hT2, hCT, hfilter, hN1]
    have hX2e : (scheduleReminder ((scheduleReminder s r now).2) r now).2.cancelled
        = s.nextHandle :: (cancelExisting s r.id).cancelled := by
      rw [hX2, hCX, hX1]
    have hnotin : s.nextHandle + 1 ∉
        s.nextHandle :: (cancelExisting s r.id).cancelled := by
      intro hmem
      rcases List.mem_cons.mp hmem with h | h
      · omega
      · have h6 := hC.2 _ h
        rw [cancelExisting_nextHandle] at h6
        omega
    refine ⟨?_, ?_, ?_⟩
    · show ((scheduleReminder ((scheduleReminder s r now).2) r now).2.table.filter
          (fun p => p.1 == r.id)).filter
          (fun p => !((scheduleReminder ((scheduleReminder s r now).2)
            r now).2.cancelled.contains p.2))
        = [(r.id, s.nextHandle + 1)]
      rw [hT2e, hX2e, List.filter_append, cancelExisting_key_filter_nil]
      have h1 : [((r.id : String), s.nextHandle + 1)].filter (fun p => p.1 == r.id)
          = [(r.id, s.nextHandle + 1)] := by simp
      rw [h1, List.nil_append]
      refine List.filter_eq_self.mpr ?_
      intro a ha
      rw [List.mem_singleton.mp ha]
      simp [List.elem_eq_mem]
      exact fun h6 => hnotin (List.mem_cons_of_mem _ h6)
    · rw [hX2e]
      exact List.mem_cons_self _ _
    · intro ctx
      have hfind2 : (scheduleReminder ((scheduleReminder s r now).2)
          r now).2.table.find? (fun p => p.2 == s.nextHandle) = none := by
        rw [hT2e, List.find?_eq_none]
        intro q hq
        rcases List.mem_append.mp hq with h | h
        · have h2 := hC.1 q h
          rw [cancelExisting_nextHandle] at h2
          simp only [beq_iff_eq]
          omega
        · rw [List.mem_singleton.mp h]
          simp
      unfold fireTimer
      rw [hfind2]

/-- Witness for C1 at a concrete run (schedule, cancel, reschedule, fire)
and a concrete double-schedule from the empty service state. -/
theorem c1_at_most_one_live_handle_witness :
    ((tableKeys (runEvents [rFuture] [Event.schedule rFuture 10, Event.cancel "r1",
        Event.schedule rFuture 10, Event.fire 1 ctxSave])).Nodup ∧
      handlesBounded (runEvents [rFuture] [Event.schedule rFuture 10, Event.cancel "r1",
        Event.schedule rFuture 10, Event.fire 1 ctxSave]) ∧
      ∀ id, (liveEntries (runEvents [rFuture] [Event.schedule rFuture 10,
        Event.cancel "r1", Event.schedule rFuture 10, Event.fire 1 ctxSave]) id).length
        ≤ 1) ∧
    (0 ∈ (scheduleReminder sWithJob rFuture 10).2.cancelled ∧
      (scheduleReminder sWithJob rFuture 10).2.table.filter (fun q => q.1 == rFuture.id)
        = [(rFuture.id, sWithJob.nextHandle)]) ∧
    (liveEntries ((scheduleReminder ((scheduleReminder sEmpty rFuture 10).2)
        rFuture 10).2) rFuture.id = [(rFuture.id, sEmpty.nextHandle + 1)] ∧
      sEmpty.nextHandle ∈ ((scheduleReminder ((scheduleReminder sEmpty rFuture 10).2)
        rFuture 10).2).cancelled ∧
      fireTimer ((scheduleReminder ((scheduleReminder sEmpty rFuture 10).2)
          rFuture 10).2) sEmpty.nextHandle ctxSave
        = (scheduleReminder ((scheduleReminder sEmpty rFuture 10).2) rFuture 10).2) := by
  obtain ⟨h1, h2, h3⟩ := c1_at_most_one_live_handle
  refine ⟨h1 [rFuture] _, ?_, ?_⟩
  · have h4 := h2 sWithJob rFuture 10 50 ("r1", 0) rfl (by decide) rfl
    exact h4
  · have h5 := h3 sEmpty rFuture 10 50
      ⟨fun q hq => absurd hq (List.not_mem_nil q),
       fun x hx => absurd hx (List.not_mem_nil x)⟩ rfl (by decide)
    exact ⟨h5.1, h5.2.1, h5.2.2 ctxSave⟩

theorem qualifiesForRestore_iff (now : Int) (r : Reminder) :
    qualifiesForRestore now r = true ↔
      (r.status = Status.pending ∧ ∃ d, r.dateTime = some d ∧ now < d) := by
  unfold qualifiesForRestore
  rcases hdt : r.dateTime with - | d <;> simp [hdt]

theorem foldSchedule_store (now : Int) (l : List Reminder) (s : SchedState) :
    (l.foldl (fun a r => (scheduleReminder a r now).2) s).store = s.store := by
  induction l generalizing s with
  | nil => rfl
  | cons r t ih =>
    rw [List.foldl_cons]
    exact (ih _).trans (scheduleReminder_store s r now)

theorem foldSchedule_keys (now : Int) :
    ∀ (l : List Reminder) (s : SchedState),
      (∀ r ∈ l, qualifiesForRestore now r = true) →
      (∀ r ∈ l, r.id ∉ tableKeys s) →
      (l.map Reminder.id).Nodup →
      tableKeys (l.foldl (fun a r => (scheduleReminder a r now).2) s)
        = tableKeys s ++ l.map Reminder.id := by
  intro l
  induction l with
  | nil =>
    intro s _ _ _
    simp
  | cons r t ih =>
    intro s hq hd hn
    have hqr := hq r (List.mem_cons_self r t)
    rw [qualifiesForRestore_iff] at hqr
    obtain ⟨hpend, d, hdt, hlt⟩ := hqr
    have hfnone : s.table.find? (fun q => q.1 == r.id) = none := by
      rw [List.find?_eq_none]
      intro q hq2 hbeq
      have hmem : q.1 ∈ tableKeys s := List.mem_map_of_mem Prod.fst hq2
      rw [beq_iff_eq.mp hbeq] at hmem
      exact hd r (List.mem_cons_self r t) hmem
    have hCE : cancelExisting s r.id = s := by
      unfold cancelExisting
      rw [hfnone]
    have hstep : tableKeys (scheduleReminder s r now).2 = tableKeys s ++ [r.id] := by
      show ((scheduleReminder s r now).2.table.map Prod.fst) = _
      rw [schedF_table s r now d hdt hlt, hCE, List.map_append]
      rfl
    have hq1 : ∀ r2 ∈ t, qualifiesForRestore now r2 = true :=
      fun r2 h2 => hq r2 (List.mem_cons_of_mem r h2)
    have hn1 : (t.map Reminder.id).Nodup := by
      rw [List.map_cons, List.nodup_cons] at hn
      exact hn.2
    have hrid : r.id ∉ t.map Reminder.id := by
      rw [List.map_cons, List.nodup_cons] at hn
      exact hn.1
    have hd1 : ∀ r2 ∈ t, r2.id ∉ tableKeys (scheduleReminder s r now).2 := by
      intro r2 h2
      rw [hstep]
      intro hmem
      rcases List.mem_append.mp hmem with h3 | h3
      · exact hd r2 (List.mem_cons_of_mem r h2) h3
      · refine hrid ?_
        rw [← List.mem_singleton.mp h3]
        exact List.mem_map_of_mem Reminder.id h2
    rw [List.foldl_cons, ih ((scheduleReminder s r now).2) hq1 hd1 hn1, hstep,
      List.map_cons, List.append_assoc]
    rfl

/-- **C2.** With a store of distinct ids, `restorePendingReminders` gives
a table entry to exactly the reminders that are pending with a strictly
future `dateTime` (the Mongo query `status=pending, dateTime > now`);
every other record receives no entry, and the routine never mutates the
store. -/
theorem c2_restore_schedules_exactly_pending_future (store : List Reminder)
    (now : Int) (hnd : (store.map Reminder.id).Nodup) :
    (restorePendingReminders (initState store) now).store = store ∧
    tableKeys (restorePendingReminders (initState store) now)
      = (store.filter (qualifiesForRestore now)).map Reminder.id ∧
    ∀ r ∈ store,
      (r.id ∈ tableKeys (restorePendingReminders (initState store) now) ↔
        (r.status = Status.pending ∧ ∃ d, r.dateTime = some d ∧ now < d)) := by
  have hkeys : tableKeys (restorePendingReminders (initState store) now)
      = tableKeys (initState store)
        ++ (store.filter (qualifiesForRestore now)).map Reminder.id :=
    foldSchedule_keys now (store.filter (qualifiesForRestore now)) (initState store)
      (fun r h => (List.mem_filter.mp h).2)
      (fun r _ => List.not_mem_nil r.id)
      (List.Nodup.sublist ((List.filter_sublist store).map Reminder.id) hnd)
  have h2 : tableKeys (restorePendingReminders (initState store) now)
      = (store.filter (qualifiesForRestore now)).map Reminder.id := by
    rw [hkeys, show tableKeys (initState store) = [] from rfl, List.nil_append]
  refine ⟨?_, h2, ?_⟩
  · exact foldSchedule_store now (store.filter (qualifiesForRestore now))
      (initState store)
  · intro r hr
    constructor
    · intro hmem
      rw [h2] at hmem
      rcases List.mem_map.mp hmem with ⟨r2, h3, h4⟩
      have h5 := List.mem_filter.mp h3
      have h6 : r2 = r := List.inj_on_of_nodup_map hnd h5.1 hr h4
      rw [← qualifiesForRestore_iff, ← h6]
      exact h5.2
    · intro hcond
      rw [h2]
      exact List.mem_map_of_mem Reminder.id
        (List.mem_filter.mpr ⟨hr, (qualifiesForRestore_iff now r).mpr hcond⟩)

/-- The P5 store of the spec: A pending-future, B pending-past, C
sent-future. -/
def rPendingPast : Reminder := { rFuture with id := "r2", dateTime := some 5 }

/-- Sent reminder with a future date, under a distinct id. -/
def rSentFuture : Reminder := { rFuture with id := "r3", status := Status.sent }

/-- Witness for C2 on the spec's P5 store: only A is scheduled. -/
theorem c2_restore_witness :
    (restorePendingReminders (initState [rFuture, rPendingPast, rSentFuture]) 10).store
      = [rFuture, rPendingPast, rSentFuture] ∧
    tableKeys (restorePendingReminders
        (initState [rFuture, rPendingPast, rSentFuture]) 10)
      = ([rFuture, rPendingPast, rSentFuture].filter
          (qualifiesForRestore 10)).map Reminder.id ∧
    ∀ r ∈ [rFuture, rPendingPast, rSentFuture],
      (r.id ∈ tableKeys (restorePendingReminders
          (initState [rFuture, rPendingPast, rSentFuture]) 10) ↔
        (r.status = Status.pending ∧ ∃ d, r.dateTime = some d ∧ 10 < d)) :=
  c2_restore_schedules_exactly_pending_future
    [rFuture, rPendingPast, rSentFuture] 10 (by decide)

end EyeCare
